import Mathlib

/-!
Verification of `scripts/generate_icons.py` (Android icon generator).

The script reads one source image, normalizes it to RGBA, and writes five
resized PNG copies into `mipmap-*` subdirectories of an output root.

Shallow embedding: the filesystem is an explicit state (`FS`), and the
external collaborators (the PIL image library and the OS) are modelled by an
environment `Env` that decides, per path, whether each external call succeeds
and what abstract pixel payload the library operations produce.  PIL internals
(codec, Lanczos kernel) are out of scope per the spec; the embedding records
the mode, the dimensions and an abstract data payload of each image, and the
exact arguments the script passes to each library call.
-/

set_option autoImplicit false

namespace IconGen

/-- A decoded PIL image: its pixel mode (e.g. "RGBA"), its dimensions, and an
abstract payload standing for the pixel data (codec internals are external). -/
structure PILImage where
  mode : String
  width : Nat
  height : Nat
  data : Nat
deriving Repr, DecidableEq

/-- A PNG file body as written by `img.save(path, 'PNG')`: the encoder is
deterministic, so the bytes are a function of the image being saved.  We keep
the fields that the spec talks about (mode, dimensions) plus the abstract
pixel payload. -/
structure EncodedPNG where
  mode : String
  width : Nat
  height : Nat
  data : Nat
deriving Repr, DecidableEq

/-- The resampling filters of `PIL.Image.Resampling`. -/
inductive Resampling where
  | NEAREST
  | BOX
  | BILINEAR
  | HAMMING
  | BICUBIC
  | LANCZOS
deriving Repr, DecidableEq

/-- Python exceptions that the script's operations can raise.  Every
constructor models a subclass of `Exception` (PIL's decode errors and the
OSError family raised by `os.makedirs` and `Image.save`). -/
inductive PyExc where
  /-- `Image.open` failed to decode the file at `path` (missing, corrupt or
  unsupported data). -/
  | loadFailure (path : String)
  /-- An `OSError` from `os.makedirs` or from writing the file at `path`,
  with the OS-level cause (e.g. "Permission denied").  CPython attaches the
  failing path to the exception, so its message names the path. -/
  | osError (path : String) (cause : String)
deriving Repr, DecidableEq

/-- All exceptions in this program derive from Python's `Exception`, so the
script's `except Exception` handler catches each of them. -/
def isException : PyExc → Bool
  | .loadFailure _ => true
  | .osError _ _ => true

/-- The filesystem state under the process: the set of directories created
and an association of file paths to PNG contents.  `files` keeps at most one
entry per path (writes overwrite in place). -/
structure FS where
  dirs : List String
  files : List (String × EncodedPNG)
deriving Repr, DecidableEq

/-- Overwrite-or-append on the file association list. -/
def writeAssoc : List (String × EncodedPNG) → String → EncodedPNG → List (String × EncodedPNG)
  | [], p, c => [(p, c)]
  | (q, d) :: rest, p, c =>
      if q = p then (p, c) :: rest else (q, d) :: writeAssoc rest p c

/-- First-match lookup on the file association list. -/
def lookupAssoc : List (String × EncodedPNG) → String → Option EncodedPNG
  | [], _ => none
  | (q, d) :: rest, p => if q = p then some d else lookupAssoc rest p

/-- Read the file at path `p`, if present. -/
def FS.lookup (fs : FS) (p : String) : Option EncodedPNG :=
  lookupAssoc fs.files p

/-- `os.makedirs(p, exist_ok=True)`: create the directory if absent;
a pre-existing directory is not an error and leaves the state unchanged. -/
def FS.mkdir (fs : FS) (p : String) : FS :=
  if p ∈ fs.dirs then fs else { fs with dirs := fs.dirs ++ [p] }

/-- Write (create or overwrite) the file at path `p` with content `c`. -/
def FS.writeFile (fs : FS) (p : String) (c : EncodedPNG) : FS :=
  { fs with files := writeAssoc fs.files p c }

/-- The environment: outcomes of the external calls the script makes.  The
failure oracles are per-path, modelling a fixed external world (permissions,
disk state) for the duration of the runs under consideration. -/
structure Env where
  /-- `os.path.exists(source_image)` in the `__main__` block. -/
  sourceExists : Bool
  /-- Result of `Image.open(source_path)`: the decoded image, or the decode
  exception. -/
  decode : Except PyExc PILImage
  /-- Whether `os.makedirs(p, exist_ok=True)` fails, and with which cause. -/
  mkdirFail : String → Option String
  /-- Whether `img.save(p, 'PNG')` fails, and with which cause. -/
  saveFail : String → Option String
  /-- Abstract pixel payload produced by `img.convert(mode)`. -/
  convertData : PILImage → String → Nat
  /-- Abstract pixel payload produced by `img.resize((w, h), filter)`. -/
  resampleData : Resampling → PILImage → Nat → Nat → Nat

/-- `img.convert(mode)`: same dimensions, new mode, library-computed pixels. -/
def pilConvert (env : Env) (img : PILImage) (mode : String) : PILImage :=
  { mode := mode, width := img.width, height := img.height
    data := env.convertData img mode }

/-- `img.resize((w, h), filter)`: the requested dimensions, the same mode,
library-computed pixels. -/
def pilResize (env : Env) (img : PILImage) (w h : Nat) (filter : Resampling) : PILImage :=
  { mode := img.mode, width := w, height := h
    data := env.resampleData filter img w h }

/-- `img.save(path, 'PNG')` content: deterministic PNG encoding of `img`. -/
def savePNG (img : PILImage) : EncodedPNG :=
  { mode := img.mode, width := img.width, height := img.height, data := img.data }

/-- Lines 28-29 of the script: `if source_img.mode != 'RGBA': source_img =
source_img.convert('RGBA')`. -/
def normalizeRGBA (env : Env) (img : PILImage) : PILImage :=
  if img.mode = "RGBA" then img else pilConvert env img "RGBA"

/-- The spec's alpha-capable output format: RGBA is the pixel format with an
alpha channel that the script and the spec name. -/
def hasAlphaChannel (mode : String) : Bool :=
  mode = "RGBA"

/-- `os.path.join(a, b)` for a relative second component on POSIX. -/
def joinPath (a b : String) : String :=
  a ++ "/" ++ b

/-- The fixed size table of the script (lines 14-20), in insertion order
(Python dicts iterate in insertion order). -/
def sizes : List (String × Nat) :=
  [("mipmap-mdpi", 48),
   ("mipmap-hdpi", 72),
   ("mipmap-xhdpi", 96),
   ("mipmap-xxhdpi", 144),
   ("mipmap-xxxhdpi", 192)]

/-- The fixed output filename. -/
def icon_filename : String := "ic_launcher.png"

/-- `folder_path = os.path.join(output_dir, folder)` for a table entry. -/
def entryDirPath (out : String) (e : String × Nat) : String :=
  joinPath out e.1

/-- `output_path = os.path.join(folder_path, 'ic_launcher.png')`. -/
def entryFilePath (out : String) (e : String × Nat) : String :=
  joinPath (entryDirPath out e) icon_filename

/-- The PNG content the script writes for a table entry: the normalized image
resized to `size x size` with `Image.Resampling.LANCZOS`, PNG-encoded. -/
def iconContent (env : Env) (img : PILImage) (e : String × Nat) : EncodedPNG :=
  savePNG (pilResize env img e.2 e.2 Resampling.LANCZOS)

/-- Observable external actions, in program order: the decode attempt, the
RGBA conversion, each directory creation and each file save attempt. -/
inductive Effect where
  | decodeAttempt (path : String)
  | convert
  | mkdir (path : String)
  | save (path : String)
deriving Repr, DecidableEq

/-- State after a straight-line piece of the `try` block: the filesystem, the
effects attempted so far, and the first uncaught-yet exception, if any. -/
structure BodyResult where
  fs : FS
  effects : List Effect
  err : Option PyExc
deriving Repr, DecidableEq

/-- The per-entry loop (lines 31-42): for each `(folder, size)` in table
order, `os.makedirs(folder_path, exist_ok=True)`, resize with LANCZOS, and
save as PNG to `folder_path/ic_launcher.png`.  The first exception aborts the
loop. -/
def processEntries (env : Env) (img : PILImage) (out : String) :
    List (String × Nat) → FS → BodyResult
  | [], fs => ⟨fs, [], none⟩
  | e :: rest, fs =>
      let dp := entryDirPath out e
      match env.mkdirFail dp with
      | some cause => ⟨fs, [.mkdir dp], some (.osError dp cause)⟩
      | none =>
          let fs1 := fs.mkdir dp
          let fp := entryFilePath out e
          match env.saveFail fp with
          | some cause => ⟨fs1, [.mkdir dp, .save fp], some (.osError fp cause)⟩
          | none =>
              let fs2 := fs1.writeFile fp (iconContent env img e)
              let r := processEntries env img out rest fs2
              ⟨r.fs, .mkdir dp :: .save fp :: r.effects, r.err⟩

/-- The body of the `try` block (lines 23-44): decode, normalize to RGBA,
then the per-entry loop. -/
def tryBody (env : Env) (src out : String) (fs : FS) : BodyResult :=
  match env.decode with
  | .error e => ⟨fs, [.decodeAttempt src], some e⟩
  | .ok img =>
      let convEff : List Effect := if img.mode = "RGBA" then [] else [.convert]
      let r := processEntries env (normalizeRGBA env img) out sizes fs
      ⟨r.fs, .decodeAttempt src :: (convEff ++ r.effects), r.err⟩

/-- Result of one call of `generate_android_icons`: the filesystem, the
effect trace, the exception caught by the `except Exception` handler (whose
message is the error banner), the exception propagated to the caller, and
whether the function returned normally (with Python's implicit `None`). -/
structure GenResult where
  fs : FS
  effects : List Effect
  caught : Option PyExc
  raised : Option PyExc
  returned : Bool
deriving Repr, DecidableEq

/-- `generate_android_icons(source_path, output_dir)` (lines 10-48): the
whole body runs under one `try`, and its single `except Exception as e`
handler prints the error banner; the function has no `return` statement. -/
def generate_android_icons (env : Env) (src out : String) (fs : FS) : GenResult :=
  let b := tryBody env src out fs
  match b.err with
  | none => ⟨b.fs, b.effects, none, none, true⟩
  | some e =>
      if isException e then ⟨b.fs, b.effects, some e, none, true⟩
      else ⟨b.fs, b.effects, none, some e, false⟩

/-- The hard-coded source path of the `__main__` block. -/
def source_image : String := "assets/images/app_logo.png"

/-- The hard-coded output root of the `__main__` block. -/
def android_res_dir : String := "android/app/src/main/res"

/-- What the `__main__` block reported. -/
inductive MainOutcome where
  /-- The existence check failed: the source-not-found banner was printed and
  `generate_android_icons` was never called. -/
  | sourceNotFound
  /-- `generate_android_icons` ran with the given result. -/
  | ran (r : GenResult)
deriving Repr, DecidableEq

/-- Result of the whole process: final filesystem, effect trace, outcome,
and the process exit status (the script never calls `sys.exit` and no
exception escapes, so CPython exits with status 0). -/
structure MainResult where
  fs : FS
  effects : List Effect
  outcome : MainOutcome
  exitCode : Nat
deriving Repr, DecidableEq

/-- The `__main__` block (lines 50-58): check `os.path.exists(source_image)`
before any decode attempt; on failure print the not-found banner and stop. -/
def mainRun (env : Env) (fs : FS) : MainResult :=
  if env.sourceExists then
    let r := generate_android_icons env source_image android_res_dir fs
    ⟨r.fs, r.effects, .ran r, 0⟩
  else
    ⟨fs, [], .sourceNotFound, 0⟩

/-! ### Basic filesystem lemmas -/

theorem lookupAssoc_writeAssoc_same (l : List (String × EncodedPNG)) (p : String)
    (c : EncodedPNG) : lookupAssoc (writeAssoc l p c) p = some c := by
  induction l with
  | nil => simp [writeAssoc, lookupAssoc]
  | cons hd tl ih =>
      by_cases h : hd.1 = p
      · simp [writeAssoc, lookupAssoc, h]
      · simp only [writeAssoc, lookupAssoc, h, if_false]
        exact ih

theorem lookupAssoc_writeAssoc_ne (l : List (String × EncodedPNG)) (p q : String)
    (c : EncodedPNG) (h : q ≠ p) :
    lookupAssoc (writeAssoc l p c) q = lookupAssoc l q := by
  induction l with
  | nil =>
      simp only [writeAssoc, lookupAssoc]
      rw [if_neg (fun hh => h hh.symm)]
  | cons hd tl ih =>
      by_cases h1 : hd.1 = p
      · simp [writeAssoc, lookupAssoc, h1, h, Ne.symm h]
      · by_cases h2 : hd.1 = q
        · simp [writeAssoc, lookupAssoc, h1, h2, h]
        · simp only [writeAssoc, lookupAssoc, h1, h2, if_false, ih]

theorem writeAssoc_of_lookup_eq (l : List (String × EncodedPNG)) (p : String)
    (c : EncodedPNG) (h : lookupAssoc l p = some c) : writeAssoc l p c = l := by
  induction l with
  | nil => simp [lookupAssoc] at h
  | cons hd tl ih =>
      obtain ⟨q, d⟩ := hd
      by_cases h1 : q = p
      · subst h1
        simp only [lookupAssoc, if_pos rfl] at h
        obtain rfl : d = c := by injection h
        simp [writeAssoc]
      · simp only [lookupAssoc, h1, if_false] at h
        simp [writeAssoc, h1, ih h]

theorem FS.lookup_writeFile_same (fs : FS) (p : String) (c : EncodedPNG) :
    (fs.writeFile p c).lookup p = some c :=
  lookupAssoc_writeAssoc_same fs.files p c

theorem FS.lookup_writeFile_ne (fs : FS) (p q : String) (c : EncodedPNG) (h : q ≠ p) :
    (fs.writeFile p c).lookup q = fs.lookup q :=
  lookupAssoc_writeAssoc_ne fs.files p q c h

theorem FS.writeFile_of_lookup_eq (fs : FS) (p : String) (c : EncodedPNG)
    (h : fs.lookup p = some c) : fs.writeFile p c = fs := by
  cases fs with
  | mk dirs files => simp [FS.writeFile, writeAssoc_of_lookup_eq files p c h]

theorem FS.mem_dirs_mkdir (fs : FS) (p : String) : p ∈ (fs.mkdir p).dirs := by
  by_cases h : p ∈ fs.dirs <;> simp [FS.mkdir, h]

theorem FS.mkdir_of_mem (fs : FS) (p : String) (h : p ∈ fs.dirs) : fs.mkdir p = fs := by
  simp [FS.mkdir, h]

theorem FS.mem_dirs_mkdir_iff (fs : FS) (p q : String) :
    q ∈ (fs.mkdir p).dirs ↔ q ∈ fs.dirs ∨ q = p := by
  by_cases h : p ∈ fs.dirs
  · simp only [FS.mkdir, h, if_pos]
    constructor
    · exact Or.inl
    · rintro (hq | rfl)
      · exact hq
      · exact h
  · simp [FS.mkdir, h]

theorem FS.lookup_mkdir (fs : FS) (p q : String) : (fs.mkdir p).lookup q = fs.lookup q := by
  by_cases h : p ∈ fs.dirs <;> simp [FS.mkdir, h, FS.lookup]

theorem FS.dirs_writeFile (fs : FS) (p : String) (c : EncodedPNG) :
    (fs.writeFile p c).dirs = fs.dirs := rfl

theorem FS.mkdir_mkdir (fs : FS) (p : String) : (fs.mkdir p).mkdir p = fs.mkdir p :=
  FS.mkdir_of_mem _ p (FS.mem_dirs_mkdir fs p)

/-! ### Path lemmas -/

theorem string_append_cancel_left {a b c : String} (h : a ++ b = a ++ c) : b = c := by
  apply String.ext
  have hd := congrArg String.data h
  rw [String.data_append, String.data_append] at hd
  exact List.append_cancel_left hd

theorem entryDirPath_eq_append (out : String) (e : String × Nat) :
    entryDirPath out e = out ++ ("/" ++ e.1) := by
  simp [entryDirPath, joinPath, String.append_assoc]

theorem entryFilePath_eq_append (out : String) (e : String × Nat) :
    entryFilePath out e = out ++ ("/" ++ e.1 ++ ("/" ++ icon_filename)) := by
  simp [entryFilePath, entryDirPath, joinPath, String.append_assoc]

theorem label_infix_entryDirPath (out : String) (e : String × Nat) :
    e.1.data <:+: (entryDirPath out e).data := by
  refine ⟨(out ++ "/").data, [], ?_⟩
  simp [entryDirPath, joinPath, String.data_append]

theorem label_infix_entryFilePath (out : String) (e : String × Nat) :
    e.1.data <:+: (entryFilePath out e).data := by
  refine ⟨(out ++ "/").data, ("/" ++ icon_filename).data, ?_⟩
  simp [entryFilePath, entryDirPath, joinPath, String.data_append, List.append_assoc]

/-! ### Loop characterization -/

/-- The filesystem change of one fully successful table entry. -/
def applyEntry (env : Env) (img : PILImage) (out : String) (fs : FS) (e : String × Nat) : FS :=
  (fs.mkdir (entryDirPath out e)).writeFile (entryFilePath out e) (iconContent env img e)

/-- The filesystem after fully processing a list of entries in order. -/
def applyAll (env : Env) (img : PILImage) (out : String) : List (String × Nat) → FS → FS
  | [], fs => fs
  | e :: rest, fs => applyAll env img out rest (applyEntry env img out fs e)

/-- The effect trace of a fully processed list of entries. -/
def entryEffects (out : String) : List (String × Nat) → List Effect
  | [] => []
  | e :: rest =>
      .mkdir (entryDirPath out e) :: .save (entryFilePath out e) :: entryEffects out rest

/-- The first external failure an entry runs into under `env`, if any:
`os.makedirs` is attempted first, then the save. -/
def entryFailure (env : Env) (out : String) (e : String × Nat) : Option PyExc :=
  match env.mkdirFail (entryDirPath out e) with
  | some c => some (.osError (entryDirPath out e) c)
  | none =>
      match env.saveFail (entryFilePath out e) with
      | some c => some (.osError (entryFilePath out e) c)
      | none => none

theorem entryFailure_eq_none (env : Env) (out : String) (e : String × Nat) :
    entryFailure env out e = none ↔
      env.mkdirFail (entryDirPath out e) = none ∧
      env.saveFail (entryFilePath out e) = none := by
  unfold entryFailure
  cases hm : env.mkdirFail (entryDirPath out e) with
  | some c => simp [hm]
  | none =>
      cases hs : env.saveFail (entryFilePath out e) with
      | some c => simp [hs]
      | none => simp

theorem processEntries_ok (env : Env) (img : PILImage) (out : String)
    (l : List (String × Nat)) (fs : FS)
    (h : ∀ e ∈ l, entryFailure env out e = none) :
    processEntries env img out l fs = ⟨applyAll env img out l fs, entryEffects out l, none⟩ := by
  induction l generalizing fs with
  | nil => rfl
  | cons e rest ih =>
      have he := h e (List.mem_cons_self e rest)
      obtain ⟨hm, hs⟩ := (entryFailure_eq_none env out e).mp he
      simp only [processEntries, hm, hs]
      rw [ih _ fun x hx => h x (List.mem_cons_of_mem e hx)]
      rfl

theorem processEntries_err_none (env : Env) (img : PILImage) (out : String)
    (l : List (String × Nat)) (fs : FS)
    (h : (processEntries env img out l fs).err = none) :
    ∀ e ∈ l, entryFailure env out e = none := by
  induction l generalizing fs with
  | nil => intro e he; cases he
  | cons e rest ih =>
      intro x hx
      rcases List.mem_cons.mp hx with rfl | hx2
      · rw [entryFailure_eq_none]
        cases hm : env.mkdirFail (entryDirPath out x) with
        | some c => simp [processEntries, hm] at h
        | none =>
            cases hs : env.saveFail (entryFilePath out x) with
            | some c => simp [processEntries, hm, hs] at h
            | none => exact ⟨rfl, rfl⟩
      · cases hm : env.mkdirFail (entryDirPath out e) with
        | some c => simp [processEntries, hm] at h
        | none =>
            cases hs : env.saveFail (entryFilePath out e) with
            | some c => simp [processEntries, hm, hs] at h
            | none =>
                simp only [processEntries, hm, hs] at h
                exact ih _ h x hx2

theorem processEntries_of_err_none (env : Env) (img : PILImage) (out : String)
    (l : List (String × Nat)) (fs : FS)
    (h : (processEntries env img out l fs).err = none) :
    processEntries env img out l fs = ⟨applyAll env img out l fs, entryEffects out l, none⟩ :=
  processEntries_ok env img out l fs (processEntries_err_none env img out l fs h)

/-- The result of attempting one table entry in isolation, starting from `fs`:
a mkdir failure leaves the state untouched, a save failure leaves the created
directory behind, and success applies the whole entry. -/
def entryAttempt (env : Env) (img : PILImage) (out : String) (fs : FS)
    (e : String × Nat) : BodyResult :=
  match env.mkdirFail (entryDirPath out e) with
  | some cause =>
      ⟨fs, [.mkdir (entryDirPath out e)], some (.osError (entryDirPath out e) cause)⟩
  | none =>
      match env.saveFail (entryFilePath out e) with
      | some cause =>
          ⟨fs.mkdir (entryDirPath out e),
           [.mkdir (entryDirPath out e), .save (entryFilePath out e)],
           some (.osError (entryFilePath out e) cause)⟩
      | none =>
          ⟨applyEntry env img out fs e,
           [.mkdir (entryDirPath out e), .save (entryFilePath out e)],
           none⟩

theorem entryAttempt_err (env : Env) (img : PILImage) (out : String) (fs : FS)
    (e : String × Nat) :
    (entryAttempt env img out fs e).err = entryFailure env out e := by
  cases hm : env.mkdirFail (entryDirPath out e) with
  | some c => simp [entryAttempt, entryFailure, hm]
  | none =>
      cases hs : env.saveFail (entryFilePath out e) with
      | some c => simp [entryAttempt, entryFailure, hm, hs]
      | none => simp [entryAttempt, entryFailure, hm, hs]

theorem processEntries_fail_cons (env : Env) (img : PILImage) (out : String)
    (e : String × Nat) (rest : List (String × Nat)) (fs : FS) (exc : PyExc)
    (h : entryFailure env out e = some exc) :
    processEntries env img out (e :: rest) fs = entryAttempt env img out fs e := by
  unfold entryFailure at h
  cases hm : env.mkdirFail (entryDirPath out e) with
  | some c => simp [processEntries, entryAttempt, hm]
  | none =>
      cases hs : env.saveFail (entryFilePath out e) with
      | some c => simp [processEntries, entryAttempt, hm, hs]
      | none => simp [hm, hs] at h

theorem processEntries_cons_ok (env : Env) (img : PILImage) (out : String)
    (e : String × Nat) (rest : List (String × Nat)) (fs : FS)
    (hm : env.mkdirFail (entryDirPath out e) = none)
    (hs : env.saveFail (entryFilePath out e) = none) :
    processEntries env img out (e :: rest) fs =
      ⟨(processEntries env img out rest (applyEntry env img out fs e)).fs,
       .mkdir (entryDirPath out e) :: .save (entryFilePath out e) ::
         (processEntries env img out rest (applyEntry env img out fs e)).effects,
       (processEntries env img out rest (applyEntry env img out fs e)).err⟩ := by
  simp [processEntries, hm, hs, applyEntry]

theorem processEntries_first_fail (env : Env) (img : PILImage) (out : String)
    (l : List (String × Nat)) (k : Nat) (hk : k < l.length) (fs : FS)
    (hpre : ∀ e ∈ l.take k, entryFailure env out e = none)
    (exc : PyExc) (hfail : entryFailure env out (l.get ⟨k, hk⟩) = some exc) :
    processEntries env img out l fs =
      ⟨(entryAttempt env img out (applyAll env img out (l.take k) fs) (l.get ⟨k, hk⟩)).fs,
       entryEffects out (l.take k) ++
         (entryAttempt env img out (applyAll env img out (l.take k) fs) (l.get ⟨k, hk⟩)).effects,
       some exc⟩ := by
  induction k generalizing l fs with
  | zero =>
      cases l with
      | nil => exact absurd hk (by simp)
      | cons e rest =>
          have hget : (e :: rest).get ⟨0, hk⟩ = e := rfl
          rw [hget] at hfail ⊢
          rw [processEntries_fail_cons env img out e rest fs exc hfail]
          have herr : (entryAttempt env img out fs e).err = some exc := by
            rw [entryAttempt_err]; exact hfail
          simp only [List.take_zero, applyAll, entryEffects, List.nil_append]
          rw [← herr]
  | succ k ih =>
      cases l with
      | nil => exact absurd hk (by simp)
      | cons e rest =>
          have he : entryFailure env out e = none := by
            apply hpre e
            rw [List.take_succ_cons]
            exact List.mem_cons_self e _
          obtain ⟨hm, hs⟩ := (entryFailure_eq_none env out e).mp he
          have hk2 : k < rest.length := Nat.lt_of_succ_lt_succ hk
          have hget : (e :: rest).get ⟨k + 1, hk⟩ = rest.get ⟨k, hk2⟩ := rfl
          rw [hget] at hfail ⊢
          rw [processEntries_cons_ok env img out e rest fs hm hs]
          rw [ih rest hk2 (applyEntry env img out fs e)
              (fun x hx => hpre x (by rw [List.take_succ_cons]; exact List.mem_cons_of_mem e hx))
              hfail]
          simp only [List.take_succ_cons, applyAll, entryEffects, List.cons_append]

/-! ### Frame and monotonicity lemmas -/

theorem lookup_applyAll_not_mem (env : Env) (img : PILImage) (out : String)
    (l : List (String × Nat)) (fs : FS) (p : String)
    (hp : ∀ e ∈ l, p ≠ entryFilePath out e) :
    (applyAll env img out l fs).lookup p = fs.lookup p := by
  induction l generalizing fs with
  | nil => rfl
  | cons e rest ih =>
      show (applyAll env img out rest (applyEntry env img out fs e)).lookup p = fs.lookup p
      rw [ih _ fun x hx => hp x (List.mem_cons_of_mem e hx)]
      show ((fs.mkdir (entryDirPath out e)).writeFile (entryFilePath out e)
        (iconContent env img e)).lookup p = fs.lookup p
      rw [FS.lookup_writeFile_ne _ _ _ _ (hp e (List.mem_cons_self e rest))]
      exact FS.lookup_mkdir fs (entryDirPath out e) p

theorem mem_dirs_applyAll (env : Env) (img : PILImage) (out : String)
    (l : List (String × Nat)) (fs : FS) (q : String) :
    q ∈ (applyAll env img out l fs).dirs ↔
      q ∈ fs.dirs ∨ ∃ e ∈ l, q = entryDirPath out e := by
  induction l generalizing fs with
  | nil => simp [applyAll]
  | cons e rest ih =>
      show q ∈ (applyAll env img out rest (applyEntry env img out fs e)).dirs ↔ _
      rw [ih]
      have hde : (applyEntry env img out fs e).dirs = (fs.mkdir (entryDirPath out e)).dirs := rfl
      rw [hde, FS.mem_dirs_mkdir_iff]
      simp only [List.mem_cons]
      constructor
      · rintro (⟨hq | rfl⟩ | ⟨x, hx, rfl⟩)
        · exact Or.inl hq
        · exact Or.inr ⟨e, Or.inl rfl, rfl⟩
        · exact Or.inr ⟨x, Or.inr hx, rfl⟩
      · rintro (hq | ⟨x, hx | hx, rfl⟩)
        · exact Or.inl (Or.inl hq)
        · exact Or.inl (Or.inr (by rw [hx]))
        · exact Or.inr ⟨x, hx, rfl⟩

theorem lookup_applyAll_mem (env : Env) (img : PILImage) (out : String)
    (l : List (String × Nat)) (fs : FS)
    (hnd : (l.map fun e => entryFilePath out e).Nodup) :
    ∀ e ∈ l, (applyAll env img out l fs).lookup (entryFilePath out e) =
      some (iconContent env img e) := by
  induction l generalizing fs with
  | nil => intro e he; cases he
  | cons a rest ih =>
      intro e he
      rw [List.map_cons, List.nodup_cons] at hnd
      obtain ⟨hna, hnr⟩ := hnd
      rcases List.mem_cons.mp he with rfl | he2
      · show (applyAll env img out rest (applyEntry env img out fs e)).lookup
          (entryFilePath out e) = some (iconContent env img e)
        rw [lookup_applyAll_not_mem env img out rest _ _
            (fun x hx hxeq => hna (by rw [hxeq]; exact List.mem_map_of_mem _ hx))]
        exact FS.lookup_writeFile_same _ _ _
      · exact ih _ hnr e he2

theorem mem_dirs_processEntries_of_mem (env : Env) (img : PILImage) (out : String)
    (l : List (String × Nat)) (fs : FS) (q : String) (h : q ∈ fs.dirs) :
    q ∈ (processEntries env img out l fs).fs.dirs := by
  induction l generalizing fs with
  | nil => exact h
  | cons e rest ih =>
      cases hm : env.mkdirFail (entryDirPath out e) with
      | some c => simpa [processEntries, hm] using h
      | none =>
          cases hs : env.saveFail (entryFilePath out e) with
          | some c =>
              simp only [processEntries, hm, hs]
              rw [FS.mem_dirs_mkdir_iff]
              exact Or.inl h
          | none =>
              simp only [processEntries, hm, hs]
              apply ih
              show q ∈ ((fs.mkdir (entryDirPath out e)).writeFile _ _).dirs
              rw [FS.dirs_writeFile, FS.mem_dirs_mkdir_iff]
              exact Or.inl h

theorem mem_dirs_processEntries (env : Env) (img : PILImage) (out : String)
    (l : List (String × Nat)) (fs : FS) (q : String)
    (h : q ∈ (processEntries env img out l fs).fs.dirs) :
    q ∈ fs.dirs ∨ ∃ e ∈ l, q = entryDirPath out e := by
  induction l generalizing fs with
  | nil => exact Or.inl h
  | cons e rest ih =>
      cases hm : env.mkdirFail (entryDirPath out e) with
      | some c =>
          simp only [processEntries, hm] at h
          exact Or.inl h
      | none =>
          cases hs : env.saveFail (entryFilePath out e) with
          | some c =>
              simp only [processEntries, hm, hs] at h
              rw [FS.mem_dirs_mkdir_iff] at h
              rcases h with hq | rfl
              · exact Or.inl hq
              · exact Or.inr ⟨e, List.mem_cons_self e rest, rfl⟩
          | none =>
              simp only [processEntries, hm, hs] at h
              rcases ih _ h with hq | ⟨x, hx, rfl⟩
              · rw [show ((fs.mkdir (entryDirPath out e)).writeFile (entryFilePath out e)
                    (iconContent env img e)).dirs = (fs.mkdir (entryDirPath out e)).dirs
                    from rfl, FS.mem_dirs_mkdir_iff] at hq
                rcases hq with hq | rfl
                · exact Or.inl hq
                · exact Or.inr ⟨e, List.mem_cons_self e rest, rfl⟩
              · exact Or.inr ⟨x, List.mem_cons_of_mem e hx, rfl⟩

theorem lookup_processEntries_not_mem (env : Env) (img : PILImage) (out : String)
    (l : List (String × Nat)) (fs : FS) (p : String)
    (hp : ∀ e ∈ l, p ≠ entryFilePath out e) :
    (processEntries env img out l fs).fs.lookup p = fs.lookup p := by
  induction l generalizing fs with
  | nil => rfl
  | cons e rest ih =>
      cases hm : env.mkdirFail (entryDirPath out e) with
      | some c => simp [processEntries, hm]
      | none =>
          cases hs : env.saveFail (entryFilePath out e) with
          | some c =>
              simp only [processEntries, hm, hs]
              exact FS.lookup_mkdir fs (entryDirPath out e) p
          | none =>
              simp only [processEntries, hm, hs]
              rw [ih _ fun x hx => hp x (List.mem_cons_of_mem e hx)]
              rw [FS.lookup_writeFile_ne _ _ _ _ (hp e (List.mem_cons_self e rest))]
              exact FS.lookup_mkdir fs (entryDirPath out e) p

theorem convert_not_mem_entryEffects (out : String) (l : List (String × Nat)) :
    Effect.convert ∉ entryEffects out l := by
  induction l with
  | nil => simp [entryEffects]
  | cons e rest ih => simp [entryEffects, ih]

theorem convert_not_mem_entryAttempt (env : Env) (img : PILImage) (out : String)
    (fs : FS) (e : String × Nat) :
    Effect.convert ∉ (entryAttempt env img out fs e).effects := by
  cases hm : env.mkdirFail (entryDirPath out e) with
  | some c => simp [entryAttempt, hm]
  | none =>
      cases hs : env.saveFail (entryFilePath out e) with
      | some c => simp [entryAttempt, hm, hs]
      | none => simp [entryAttempt, hm, hs]

theorem convert_not_mem_processEntries (env : Env) (img : PILImage) (out : String)
    (l : List (String × Nat)) (fs : FS) :
    Effect.convert ∉ (processEntries env img out l fs).effects := by
  induction l generalizing fs with
  | nil => simp [processEntries]
  | cons e rest ih =>
      cases hm : env.mkdirFail (entryDirPath out e) with
      | some c => simp [processEntries, hm]
      | none =>
          cases hs : env.saveFail (entryFilePath out e) with
          | some c => simp [processEntries, hm, hs]
          | none => simp [processEntries, hm, hs, ih]

/-! ### Distinctness of the five output paths -/

theorem sizes_filePaths_nodup (out : String) :
    (sizes.map fun e => entryFilePath out e).Nodup := by
  have h1 : (sizes.map fun e => entryFilePath out e)
      = (sizes.map fun e => "/" ++ e.1 ++ ("/" ++ icon_filename)).map (fun s => out ++ s) := by
    simp only [List.map_map, Function.comp]
    exact List.map_congr_left fun e _ => entryFilePath_eq_append out e
  rw [h1]
  apply List.Nodup.map
  · intro a b hab
    exact string_append_cancel_left hab
  · decide

theorem sizes_dirPaths_nodup (out : String) :
    (sizes.map fun e => entryDirPath out e).Nodup := by
  have h1 : (sizes.map fun e => entryDirPath out e)
      = (sizes.map fun e => "/" ++ e.1).map (fun s => out ++ s) := by
    simp only [List.map_map, Function.comp]
    exact List.map_congr_left fun e _ => entryDirPath_eq_append out e
  rw [h1]
  apply List.Nodup.map
  · intro a b hab
    exact string_append_cancel_left hab
  · decide

/-! ### Idempotence of the loop -/

theorem processEntries_idem (env : Env) (img : PILImage) (out : String)
    (l : List (String × Nat))
    (hnd : (l.map fun e => entryFilePath out e).Nodup) (fs : FS) :
    processEntries env img out l ((processEntries env img out l fs).fs) =
      processEntries env img out l fs := by
  induction l generalizing fs with
  | nil => rfl
  | cons e rest ih =>
      rw [List.map_cons, List.nodup_cons] at hnd
      obtain ⟨hna, hnr⟩ := hnd
      cases hm : env.mkdirFail (entryDirPath out e) with
      | some c => simp [processEntries, hm]
      | none =>
          cases hs : env.saveFail (entryFilePath out e) with
          | some c =>
              simp only [processEntries, hm, hs]
              rw [FS.mkdir_mkdir]
          | none =>
              have hdp : entryDirPath out e ∈
                  (processEntries env img out rest (applyEntry env img out fs e)).fs.dirs := by
                apply mem_dirs_processEntries_of_mem
                show entryDirPath out e ∈ ((fs.mkdir (entryDirPath out e)).writeFile _ _).dirs
                rw [FS.dirs_writeFile]
                exact FS.mem_dirs_mkdir fs _
              have hlk : (processEntries env img out rest
                  (applyEntry env img out fs e)).fs.lookup (entryFilePath out e)
                  = some (iconContent env img e) := by
                rw [lookup_processEntries_not_mem env img out rest _ _
                    (fun x hx hxeq => hna (by rw [hxeq]; exact List.mem_map_of_mem _ hx))]
                exact FS.lookup_writeFile_same _ _ _
              rw [processEntries_cons_ok env img out e rest fs hm hs]
              show processEntries env img out (e :: rest)
                  (processEntries env img out rest (applyEntry env img out fs e)).fs = _
              rw [processEntries_cons_ok env img out e rest _ hm hs]
              have happ : applyEntry env img out
                  (processEntries env img out rest (applyEntry env img out fs e)).fs e
                  = (processEntries env img out rest (applyEntry env img out fs e)).fs := by
                show ((processEntries env img out rest (applyEntry env img out fs e)).fs.mkdir
                    (entryDirPath out e)).writeFile (entryFilePath out e)
                    (iconContent env img e) = _
                rw [FS.mkdir_of_mem _ _ hdp]
                exact FS.writeFile_of_lookup_eq _ _ _ hlk
              rw [happ, ih hnr]

/-! ### The function-level wrappers -/

theorem isException_true (e : PyExc) : isException e = true := by
  cases e <;> rfl

/-- The `except Exception` handler catches every exception the body can
raise, so the result of `generate_android_icons` is the body's filesystem
and effects, the body's first exception as the caught one, nothing raised,
and a normal return. -/
theorem generate_eq (env : Env) (src out : String) (fs : FS) :
    generate_android_icons env src out fs =
      ⟨(tryBody env src out fs).fs, (tryBody env src out fs).effects,
       (tryBody env src out fs).err, none, true⟩ := by
  unfold generate_android_icons
  cases htb : (tryBody env src out fs).err with
  | none => simp [htb]
  | some e => simp [htb, isException_true e]

theorem tryBody_ok (env : Env) (src out : String) (fs : FS) (img : PILImage)
    (hdec : env.decode = .ok img)
    (herr : (processEntries env (normalizeRGBA env img) out sizes fs).err = none) :
    tryBody env src out fs =
      ⟨applyAll env (normalizeRGBA env img) out sizes fs,
       .decodeAttempt src ::
         ((if img.mode = "RGBA" then [] else [.convert]) ++ entryEffects out sizes),
       none⟩ := by
  simp only [tryBody, hdec]
  rw [processEntries_of_err_none env (normalizeRGBA env img) out sizes fs herr]

theorem tryBody_err_none (env : Env) (src out : String) (fs : FS)
    (h : (tryBody env src out fs).err = none) :
    ∃ img, env.decode = .ok img ∧
      (processEntries env (normalizeRGBA env img) out sizes fs).err = none := by
  unfold tryBody at h
  cases hdec : env.decode with
  | error e => rw [hdec] at h; simp at h
  | ok img =>
      rw [hdec] at h
      exact ⟨img, rfl, h⟩

theorem tryBody_idem (env : Env) (src out : String) (fs : FS) :
    tryBody env src out ((tryBody env src out fs).fs) = tryBody env src out fs := by
  cases hdec : env.decode with
  | error e => simp [tryBody, hdec]
  | ok img =>
      simp only [tryBody, hdec]
      rw [processEntries_idem env (normalizeRGBA env img) out sizes
          (sizes_filePaths_nodup out) fs]

/-! ### Entry-attempt and effect-trace helpers -/

theorem normalizeRGBA_mode (env : Env) (img : PILImage) :
    (normalizeRGBA env img).mode = "RGBA" := by
  unfold normalizeRGBA
  by_cases h : img.mode = "RGBA" <;> simp [h, pilConvert]

theorem normalizeRGBA_of_rgba (env : Env) (img : PILImage) (h : img.mode = "RGBA") :
    normalizeRGBA env img = img := by
  simp [normalizeRGBA, h]

theorem entryFailure_some_shape (env : Env) (out : String) (e : String × Nat) (exc : PyExc)
    (h : entryFailure env out e = some exc) :
    (∃ c, env.mkdirFail (entryDirPath out e) = some c ∧
      exc = .osError (entryDirPath out e) c) ∨
    (env.mkdirFail (entryDirPath out e) = none ∧
      ∃ c, env.saveFail (entryFilePath out e) = some c ∧
        exc = .osError (entryFilePath out e) c) := by
  unfold entryFailure at h
  cases hm : env.mkdirFail (entryDirPath out e) with
  | some c =>
      rw [hm] at h
      exact Or.inl ⟨c, rfl, by injection h with h2; exact h2.symm⟩
  | none =>
      rw [hm] at h
      cases hs : env.saveFail (entryFilePath out e) with
      | some c =>
          rw [hs] at h
          exact Or.inr ⟨rfl, c, rfl, by injection h with h2; exact h2.symm⟩
      | none => rw [hs] at h; cases h

theorem entryAttempt_fail_lookup (env : Env) (img : PILImage) (out : String) (fs : FS)
    (e : String × Nat) (exc : PyExc) (h : entryFailure env out e = some exc) (p : String) :
    (entryAttempt env img out fs e).fs.lookup p = fs.lookup p := by
  unfold entryFailure at h
  cases hm : env.mkdirFail (entryDirPath out e) with
  | some c => simp [entryAttempt, hm]
  | none =>
      cases hs : env.saveFail (entryFilePath out e) with
      | some c =>
          simp only [entryAttempt, hm, hs]
          exact FS.lookup_mkdir fs (entryDirPath out e) p
      | none => simp [hm, hs] at h

theorem entryAttempt_fail_dirs (env : Env) (img : PILImage) (out : String) (fs : FS)
    (e : String × Nat) (exc : PyExc) (h : entryFailure env out e = some exc) (q : String)
    (hq : q ∈ (entryAttempt env img out fs e).fs.dirs) :
    q ∈ fs.dirs ∨ q = entryDirPath out e := by
  unfold entryFailure at h
  cases hm : env.mkdirFail (entryDirPath out e) with
  | some c =>
      simp only [entryAttempt, hm] at hq
      exact Or.inl hq
  | none =>
      cases hs : env.saveFail (entryFilePath out e) with
      | some c =>
          simp only [entryAttempt, hm, hs] at hq
          exact (FS.mem_dirs_mkdir_iff fs _ q).mp hq
      | none => simp [hm, hs] at h

theorem entryAttempt_savefail (env : Env) (img : PILImage) (out : String) (fs : FS)
    (e : String × Nat) (cause : String)
    (hm : env.mkdirFail (entryDirPath out e) = none)
    (hs : env.saveFail (entryFilePath out e) = some cause) :
    entryAttempt env img out fs e =
      ⟨fs.mkdir (entryDirPath out e),
       [.mkdir (entryDirPath out e), .save (entryFilePath out e)],
       some (.osError (entryFilePath out e) cause)⟩ := by
  simp [entryAttempt, hm, hs]

theorem entryAttempt_effect_mkdir (env : Env) (img : PILImage) (out : String) (fs : FS)
    (e : String × Nat) (q : String)
    (hq : Effect.mkdir q ∈ (entryAttempt env img out fs e).effects) :
    q = entryDirPath out e := by
  cases hm : env.mkdirFail (entryDirPath out e) with
  | some c =>
      simp [entryAttempt, hm] at hq
      exact hq
  | none =>
      cases hs : env.saveFail (entryFilePath out e) with
      | some c =>
          simp [entryAttempt, hm, hs] at hq
          exact hq
      | none =>
          simp [entryAttempt, hm, hs] at hq
          exact hq

theorem entryAttempt_effect_save (env : Env) (img : PILImage) (out : String) (fs : FS)
    (e : String × Nat) (q : String)
    (hq : Effect.save q ∈ (entryAttempt env img out fs e).effects) :
    q = entryFilePath out e := by
  cases hm : env.mkdirFail (entryDirPath out e) with
  | some c => simp [entryAttempt, hm] at hq
  | none =>
      cases hs : env.saveFail (entryFilePath out e) with
      | some c =>
          simp [entryAttempt, hm, hs] at hq
          exact hq
      | none =>
          simp [entryAttempt, hm, hs] at hq
          exact hq

theorem mkdir_mem_entryEffects (out : String) (l : List (String × Nat)) (q : String) :
    Effect.mkdir q ∈ entryEffects out l ↔ ∃ e ∈ l, q = entryDirPath out e := by
  induction l with
  | nil => simp [entryEffects]
  | cons e rest ih =>
      simp only [entryEffects, List.mem_cons, ih]
      constructor
      · rintro (h | h | ⟨x, hx, rfl⟩)
        · exact ⟨e, Or.inl rfl, by injection h⟩
        · cases h
        · exact ⟨x, Or.inr hx, rfl⟩
      · rintro ⟨x, hx, rfl⟩
        rcases hx with rfl | hx2
        · exact Or.inl rfl
        · exact Or.inr (Or.inr ⟨x, hx2, rfl⟩)

theorem save_mem_entryEffects (out : String) (l : List (String × Nat)) (q : String) :
    Effect.save q ∈ entryEffects out l ↔ ∃ e ∈ l, q = entryFilePath out e := by
  induction l with
  | nil => simp [entryEffects]
  | cons e rest ih =>
      simp only [entryEffects, List.mem_cons, ih]
      constructor
      · rintro (h | h | ⟨x, hx, rfl⟩)
        · cases h
        · exact ⟨e, Or.inl rfl, by injection h⟩
        · exact ⟨x, Or.inr hx, rfl⟩
      · rintro ⟨x, hx, rfl⟩
        rcases hx with rfl | hx2
        · exact Or.inr (Or.inl rfl)
        · exact Or.inr (Or.inr ⟨x, hx2, rfl⟩)

/-! ### Distinctness at the index level -/

theorem entryDirPath_get_ne (out : String) (i j : Nat)
    (hi : i < sizes.length) (hj : j < sizes.length) (hij : i ≠ j) :
    entryDirPath out (sizes.get ⟨i, hi⟩) ≠ entryDirPath out (sizes.get ⟨j, hj⟩) := by
  intro h
  apply hij
  have hnd := sizes_dirPaths_nodup out
  have hlen : (sizes.map fun e => entryDirPath out e).length = sizes.length :=
    List.length_map sizes _
  have hi2 : i < (sizes.map fun e => entryDirPath out e).length := by rw [hlen]; exact hi
  have hj2 : j < (sizes.map fun e => entryDirPath out e).length := by rw [hlen]; exact hj
  have h1 : (sizes.map fun e => entryDirPath out e)[i] =
      (sizes.map fun e => entryDirPath out e)[j] := by
    rw [List.getElem_map, List.getElem_map]
    simpa [List.get_eq_getElem] using h
  exact (List.Nodup.getElem_inj_iff hnd).mp h1

theorem entryFilePath_get_ne (out : String) (i j : Nat)
    (hi : i < sizes.length) (hj : j < sizes.length) (hij : i ≠ j) :
    entryFilePath out (sizes.get ⟨i, hi⟩) ≠ entryFilePath out (sizes.get ⟨j, hj⟩) := by
  intro h
  apply hij
  have hnd := sizes_filePaths_nodup out
  have hlen : (sizes.map fun e => entryFilePath out e).length = sizes.length :=
    List.length_map sizes _
  have hi2 : i < (sizes.map fun e => entryFilePath out e).length := by rw [hlen]; exact hi
  have hj2 : j < (sizes.map fun e => entryFilePath out e).length := by rw [hlen]; exact hj
  have h1 : (sizes.map fun e => entryFilePath out e)[i] =
      (sizes.map fun e => entryFilePath out e)[j] := by
    rw [List.getElem_map, List.getElem_map]
    simpa [List.get_eq_getElem] using h
  exact (List.Nodup.getElem_inj_iff hnd).mp h1

theorem mem_take_sizes (k : Nat) (e : String × Nat) (he : e ∈ sizes.take k) :
    ∃ i, ∃ hik : i < k, ∃ hi : i < sizes.length, e = sizes.get ⟨i, hi⟩ := by
  rw [List.mem_take_iff_getElem] at he
  obtain ⟨i, hm, hei⟩ := he
  have hik : i < k := lt_of_lt_of_le hm inf_le_left
  have hi : i < sizes.length := lt_of_lt_of_le hm inf_le_right
  exact ⟨i, hik, hi, by rw [List.get_eq_getElem]; exact hei.symm⟩

theorem get_mem_take_sizes (i k : Nat) (hik : i < k) (hi : i < sizes.length) :
    sizes.get ⟨i, hi⟩ ∈ sizes.take k := by
  rw [List.mem_take_iff_getElem]
  exact ⟨i, lt_inf_iff.mpr ⟨hik, hi⟩, by rw [List.get_eq_getElem]⟩

theorem take_sizes_filePaths_nodup (out : String) (k : Nat) :
    ((sizes.take k).map fun e => entryFilePath out e).Nodup := by
  apply List.Nodup.sublist _ (sizes_filePaths_nodup out)
  exact List.Sublist.map _ (List.take_sublist k sizes)

/-! ### Run shapes -/

theorem generate_ok_shape (env : Env) (src out : String) (fs : FS)
    (hok : (generate_android_icons env src out fs).caught = none) :
    ∃ img, env.decode = .ok img ∧
      generate_android_icons env src out fs =
        ⟨applyAll env (normalizeRGBA env img) out sizes fs,
         .decodeAttempt src ::
           ((if img.mode = "RGBA" then [] else [.convert]) ++ entryEffects out sizes),
         none, none, true⟩ := by
  rw [generate_eq] at hok
  have herr : (tryBody env src out fs).err = none := hok
  obtain ⟨img, hdec, hperr⟩ := tryBody_err_none env src out fs herr
  refine ⟨img, hdec, ?_⟩
  rw [generate_eq, tryBody_ok env src out fs img hdec hperr]

theorem generate_fail_shape (env : Env) (src out : String) (fs : FS) (img : PILImage)
    (k : Nat) (hk : k < sizes.length)
    (hdec : env.decode = .ok img)
    (hpre : ∀ e ∈ sizes.take k, entryFailure env out e = none)
    (exc : PyExc) (hfail : entryFailure env out (sizes.get ⟨k, hk⟩) = some exc) :
    generate_android_icons env src out fs =
      ⟨(entryAttempt env (normalizeRGBA env img) out
          (applyAll env (normalizeRGBA env img) out (sizes.take k) fs)
          (sizes.get ⟨k, hk⟩)).fs,
       .decodeAttempt src ::
         ((if img.mode = "RGBA" then [] else [.convert]) ++
           (entryEffects out (sizes.take k) ++
             (entryAttempt env (normalizeRGBA env img) out
               (applyAll env (normalizeRGBA env img) out (sizes.take k) fs)
               (sizes.get ⟨k, hk⟩)).effects)),
       some exc, none, true⟩ := by
  rw [generate_eq]
  have h1 := processEntries_first_fail env (normalizeRGBA env img) out sizes k hk fs
    hpre exc hfail
  simp only [tryBody, hdec, h1]

theorem generate_fail_fs (env : Env) (src out : String) (fs : FS) (img : PILImage)
    (k : Nat) (hk : k < sizes.length)
    (hdec : env.decode = .ok img)
    (hpre : ∀ e ∈ sizes.take k, entryFailure env out e = none)
    (exc : PyExc) (hfail : entryFailure env out (sizes.get ⟨k, hk⟩) = some exc) :
    (generate_android_icons env src out fs).fs =
      (entryAttempt env (normalizeRGBA env img) out
        (applyAll env (normalizeRGBA env img) out (sizes.take k) fs)
        (sizes.get ⟨k, hk⟩)).fs := by
  rw [generate_fail_shape env src out fs img k hk hdec hpre exc hfail]

theorem generate_fail_caught (env : Env) (src out : String) (fs : FS) (img : PILImage)
    (k : Nat) (hk : k < sizes.length)
    (hdec : env.decode = .ok img)
    (hpre : ∀ e ∈ sizes.take k, entryFailure env out e = none)
    (exc : PyExc) (hfail : entryFailure env out (sizes.get ⟨k, hk⟩) = some exc) :
    (generate_android_icons env src out fs).caught = some exc := by
  rw [generate_fail_shape env src out fs img k hk hdec hpre exc hfail]

theorem generate_fail_effects (env : Env) (src out : String) (fs : FS) (img : PILImage)
    (k : Nat) (hk : k < sizes.length)
    (hdec : env.decode = .ok img)
    (hpre : ∀ e ∈ sizes.take k, entryFailure env out e = none)
    (exc : PyExc) (hfail : entryFailure env out (sizes.get ⟨k, hk⟩) = some exc) :
    (generate_android_icons env src out fs).effects =
      .decodeAttempt src ::
        ((if img.mode = "RGBA" then [] else [.convert]) ++
          (entryEffects out (sizes.take k) ++
            (entryAttempt env (normalizeRGBA env img) out
              (applyAll env (normalizeRGBA env img) out (sizes.take k) fs)
              (sizes.get ⟨k, hk⟩)).effects)) := by
  rw [generate_fail_shape env src out fs img k hk hdec hpre exc hfail]

theorem mkdir_not_mem_conv (c : Prop) [Decidable c] (q : String) :
    Effect.mkdir q ∉ (if c then ([] : List Effect) else [.convert]) := by
  by_cases h : c <;> simp [h]

theorem save_not_mem_conv (c : Prop) [Decidable c] (q : String) :
    Effect.save q ∉ (if c then ([] : List Effect) else [.convert]) := by
  by_cases h : c <;> simp [h]

/-! ### Concrete environments for evaluation -/

/-- A 512x512 opaque image as decoded from a JPEG: mode RGB, no alpha. -/
def sampleImage : PILImage := ⟨"RGB", 512, 512, 7⟩

/-- An environment in which every external call succeeds. -/
def okEnv : Env :=
  { sourceExists := true
    decode := .ok sampleImage
    mkdirFail := fun _ => none
    saveFail := fun _ => none
    convertData := fun img _ => img.data + 1
    resampleData := fun _ img w h => img.data * 1000 + w + h }

/-- The empty filesystem. -/
def emptyFS : FS := ⟨[], []⟩

/-- An environment whose source image is missing. -/
def noSourceEnv : Env := { okEnv with sourceExists := false }

/-- An environment whose source file exists but cannot be decoded. -/
def badDecodeEnv : Env :=
  { okEnv with decode := .error (.loadFailure source_image) }

/-- An environment where creating the third output directory (mipmap-xhdpi)
is denied; everything else succeeds. -/
def failMkdirEnv : Env :=
  { okEnv with
    mkdirFail := fun p =>
      if p = entryDirPath android_res_dir ("mipmap-xhdpi", 96)
      then some "Permission denied" else none }

/-- An environment where saving the second output file (mipmap-hdpi) fails;
everything else succeeds. -/
def failSaveEnv : Env :=
  { okEnv with
    saveFail := fun p =>
      if p = entryFilePath android_res_dir ("mipmap-hdpi", 72)
      then some "No space left on device" else none }

/-! ### Claims -/

/-- C1: The size table is fixed at exactly the five entries mapping the
mipmap labels to the strictly positive square edge lengths 48, 72, 96, 144
and 192, and a successful run (no exception caught) produces exactly one
RGBA PNG per entry at those sizes: each of the five paths
`output_root/label/ic_launcher.png` holds an RGBA image of the entry's edge
length, and no other file path is touched. -/
theorem claim_C1_size_table_and_outputs (env : Env) (src out : String) (fs : FS)
    (hok : (generate_android_icons env src out fs).caught = none) :
    sizes = [("mipmap-mdpi", 48), ("mipmap-hdpi", 72), ("mipmap-xhdpi", 96),
      ("mipmap-xxhdpi", 144), ("mipmap-xxxhdpi", 192)] ∧
    (∀ e ∈ sizes, 0 < e.2) ∧
    (∀ e ∈ sizes, ∃ png : EncodedPNG,
      (generate_android_icons env src out fs).fs.lookup (entryFilePath out e) = some png ∧
      png.mode = "RGBA" ∧ png.width = e.2 ∧ png.height = e.2) ∧
    (∀ p : String, (∀ e ∈ sizes, p ≠ entryFilePath out e) →
      (generate_android_icons env src out fs).fs.lookup p = fs.lookup p) := by
  obtain ⟨img, hdec, hshape⟩ := generate_ok_shape env src out fs hok
  refine ⟨rfl, by decide, ?_, ?_⟩
  · intro e he
    refine ⟨iconContent env (normalizeRGBA env img) e, ?_, ?_, rfl, rfl⟩
    · rw [hshape]
      exact lookup_applyAll_mem env _ out sizes fs (sizes_filePaths_nodup out) e he
    · show (normalizeRGBA env img).mode = "RGBA"
      exact normalizeRGBA_mode env img
  · intro p hp
    rw [hshape]
    exact lookup_applyAll_not_mem env _ out sizes fs p hp

theorem claim_C1_witness :
    (generate_android_icons okEnv source_image android_res_dir emptyFS).caught = none ∧
    (sizes = [("mipmap-mdpi", 48), ("mipmap-hdpi", 72), ("mipmap-xhdpi", 96),
      ("mipmap-xxhdpi", 144), ("mipmap-xxxhdpi", 192)] ∧
    (∀ e ∈ sizes, 0 < e.2) ∧
    (∀ e ∈ sizes, ∃ png : EncodedPNG,
      (generate_android_icons okEnv source_image android_res_dir emptyFS).fs.lookup
        (entryFilePath android_res_dir e) = some png ∧
      png.mode = "RGBA" ∧ png.width = e.2 ∧ png.height = e.2) ∧
    (∀ p : String, (∀ e ∈ sizes, p ≠ entryFilePath android_res_dir e) →
      (generate_android_icons okEnv source_image android_res_dir emptyFS).fs.lookup p
        = emptyFS.lookup p)) :=
  ⟨rfl, claim_C1_size_table_and_outputs okEnv source_image android_res_dir emptyFS rfl⟩

/-- C2: On a successful run with decoded image `img`, the effect trace is the
decode attempt, then the conversion when needed, then — for every table
entry, in table order — the directory creation followed by the save; and the
file at `output_root/label/ic_launcher.png` ends up holding exactly the
PNG encoding of the normalized image resized to `size x size` with the
LANCZOS filter.  The initial filesystem `fs` is arbitrary, so any existing
file at such a path is overwritten. -/
theorem claim_C2_per_entry_resize_write (env : Env) (src out : String) (fs : FS)
    (img : PILImage) (hdec : env.decode = .ok img)
    (hok : (generate_android_icons env src out fs).caught = none) :
    (generate_android_icons env src out fs).effects
      = .decodeAttempt src ::
        ((if img.mode = "RGBA" then [] else [.convert]) ++ entryEffects out sizes) ∧
    (∀ e ∈ sizes,
      (generate_android_icons env src out fs).fs.lookup (entryFilePath out e)
        = some (savePNG (pilResize env (normalizeRGBA env img) e.2 e.2
            Resampling.LANCZOS))) := by
  obtain ⟨img2, hdec2, hshape⟩ := generate_ok_shape env src out fs hok
  rw [hdec] at hdec2
  obtain rfl : img = img2 := by injection hdec2
  constructor
  · rw [hshape]
  · intro e he
    rw [hshape]
    exact lookup_applyAll_mem env _ out sizes fs (sizes_filePaths_nodup out) e he

theorem claim_C2_witness :
    okEnv.decode = Except.ok sampleImage ∧
    (generate_android_icons okEnv source_image android_res_dir emptyFS).caught = none ∧
    ((generate_android_icons okEnv source_image android_res_dir emptyFS).effects
      = .decodeAttempt source_image ::
        ((if sampleImage.mode = "RGBA" then [] else [.convert])
          ++ entryEffects android_res_dir sizes) ∧
    (∀ e ∈ sizes,
      (generate_android_icons okEnv source_image android_res_dir emptyFS).fs.lookup
        (entryFilePath android_res_dir e)
        = some (savePNG (pilResize okEnv (normalizeRGBA okEnv sampleImage) e.2 e.2
            Resampling.LANCZOS)))) :=
  ⟨rfl, rfl,
   claim_C2_per_entry_resize_write okEnv source_image android_res_dir emptyFS
     sampleImage rfl rfl⟩

/-- C3: When the source path does not exist, the `__main__` block prints the
source-not-found banner and never calls `generate_android_icons`: the
outcome is `sourceNotFound`, the filesystem is untouched, and the effect
trace is empty — in particular there is no decode attempt, no directory
creation under the output root, and no file write. -/
theorem claim_C3_source_not_found (env : Env) (fs : FS)
    (h : env.sourceExists = false) :
    (mainRun env fs).outcome = MainOutcome.sourceNotFound ∧
    (mainRun env fs).fs = fs ∧
    (mainRun env fs).effects = [] := by
  simp [mainRun, h]

theorem claim_C3_witness :
    noSourceEnv.sourceExists = false ∧
    ((mainRun noSourceEnv emptyFS).outcome = MainOutcome.sourceNotFound ∧
    (mainRun noSourceEnv emptyFS).fs = emptyFS ∧
    (mainRun noSourceEnv emptyFS).effects = []) :=
  ⟨rfl, claim_C3_source_not_found noSourceEnv emptyFS rfl⟩

/-- C6: When the source file exists but decoding fails, the failure is the
decode exception (the spec's LoadError), and — because the decode happens
once, before the per-entry loop — the filesystem is completely untouched
and the only attempted effect is the decode itself: no output directory is
created and no output file is written. -/
theorem claim_C6_load_error_no_side_effects (env : Env) (src out : String) (fs : FS)
    (exc : PyExc) (h : env.decode = Except.error exc) :
    (generate_android_icons env src out fs).caught = some exc ∧
    (generate_android_icons env src out fs).fs = fs ∧
    (generate_android_icons env src out fs).effects = [.decodeAttempt src] := by
  rw [generate_eq]
  simp [tryBody, h]

theorem claim_C6_witness :
    badDecodeEnv.decode = Except.error (PyExc.loadFailure source_image) ∧
    ((generate_android_icons badDecodeEnv source_image android_res_dir emptyFS).caught
        = some (PyExc.loadFailure source_image) ∧
    (generate_android_icons badDecodeEnv source_image android_res_dir emptyFS).fs = emptyFS ∧
    (generate_android_icons badDecodeEnv source_image android_res_dir emptyFS).effects
        = [.decodeAttempt source_image]) :=
  ⟨rfl, claim_C6_load_error_no_side_effects badDecodeEnv source_image android_res_dir
    emptyFS (PyExc.loadFailure source_image) rfl⟩

/-- C7: With a decoded image `img`, the conversion to the alpha-capable
format (RGBA) is performed exactly when `img`'s mode lacks an alpha channel
(i.e. is not RGBA): the convert effect appears in the trace iff
`hasAlphaChannel img.mode = false`, an already-RGBA image is left untouched,
the normalized image is always RGBA, and after any successful run every
output file `output_root/label/ic_launcher.png` has an alpha channel. -/
theorem claim_C7_normalize_alpha (env : Env) (src out : String) (fs : FS)
    (img : PILImage) (hdec : env.decode = Except.ok img) :
    ((Effect.convert ∈ (generate_android_icons env src out fs).effects) ↔
      hasAlphaChannel img.mode = false) ∧
    hasAlphaChannel (normalizeRGBA env img).mode = true ∧
    (hasAlphaChannel img.mode = true → normalizeRGBA env img = img) ∧
    ((generate_android_icons env src out fs).caught = none →
      ∀ e ∈ sizes, ∃ png : EncodedPNG,
        (generate_android_icons env src out fs).fs.lookup (entryFilePath out e)
          = some png ∧ hasAlphaChannel png.mode = true) := by
  refine ⟨?_, ?_, ?_, ?_⟩
  · rw [generate_eq]
    show Effect.convert ∈ (tryBody env src out fs).effects ↔ _
    simp only [tryBody, hdec]
    by_cases hmode : img.mode = "RGBA"
    · simp [hmode, hasAlphaChannel, convert_not_mem_processEntries]
    · simp [hmode, hasAlphaChannel, convert_not_mem_processEntries]
  · simp [hasAlphaChannel, normalizeRGBA_mode]
  · intro h
    refine normalizeRGBA_of_rgba env img ?_
    simpa [hasAlphaChannel] using h
  · intro hok e he
    obtain ⟨img2, hdec2, hshape⟩ := generate_ok_shape env src out fs hok
    refine ⟨iconContent env (normalizeRGBA env img2) e, ?_, ?_⟩
    · rw [hshape]
      exact lookup_applyAll_mem env _ out sizes fs (sizes_filePaths_nodup out) e he
    · show hasAlphaChannel (normalizeRGBA env img2).mode = true
      simp [hasAlphaChannel, normalizeRGBA_mode]

theorem claim_C7_witness :
    okEnv.decode = Except.ok sampleImage ∧
    (((Effect.convert ∈
        (generate_android_icons okEnv source_image android_res_dir emptyFS).effects) ↔
      hasAlphaChannel sampleImage.mode = false) ∧
    hasAlphaChannel (normalizeRGBA okEnv sampleImage).mode = true ∧
    (hasAlphaChannel sampleImage.mode = true → normalizeRGBA okEnv sampleImage = sampleImage) ∧
    ((generate_android_icons okEnv source_image android_res_dir emptyFS).caught = none →
      ∀ e ∈ sizes, ∃ png : EncodedPNG,
        (generate_android_icons okEnv source_image android_res_dir emptyFS).fs.lookup
          (entryFilePath android_res_dir e) = some png ∧
        hasAlphaChannel png.mode = true)) :=
  ⟨rfl, claim_C7_normalize_alpha okEnv source_image android_res_dir emptyFS sampleImage rfl⟩

/-- C8: For a fixed environment (same source image, same path oracles) and
any starting filesystem, running the operation twice in succession is the
same as running it once: the second run takes the same branches, produces
the same effect trace and the same caught exception, and overwrites each
written file with identical content, leaving the final filesystem equal —
the pipeline is deterministic and idempotent in the final output state. -/
theorem claim_C8_idempotent (env : Env) (src out : String) (fs : FS) :
    generate_android_icons env src out ((generate_android_icons env src out fs).fs)
      = generate_android_icons env src out fs := by
  have h2 : (generate_android_icons env src out fs).fs = (tryBody env src out fs).fs := by
    rw [generate_eq]
  rw [h2, generate_eq, generate_eq, tryBody_idem]

/-- C9: `generate_android_icons` never propagates an exception: every error
raised in the body (decode, conversion, directory creation, resize, save) is
an `Exception` and is caught by the single enclosing handler, the function
returns normally (Python's implicit `None`) on every path — so no caller can
distinguish success from failure from the return — and the process exit
status is 0 on every path. -/
theorem claim_C9_no_exception_exit_zero (env : Env) (src out : String) (fs : FS) :
    (generate_android_icons env src out fs).raised = none ∧
    (generate_android_icons env src out fs).returned = true ∧
    (mainRun env fs).exitCode = 0 ∧
    (∀ env2 : Env, ∀ src2 out2 : String, ∀ fs2 : FS,
      (generate_android_icons env src out fs).returned
        = (generate_android_icons env2 src2 out2 fs2).returned ∧
      (mainRun env fs).exitCode = (mainRun env2 fs2).exitCode) := by
  refine ⟨by rw [generate_eq], by rw [generate_eq], ?_, ?_⟩
  · by_cases h : env.sourceExists <;> simp [mainRun, h]
  · intro env2 src2 out2 fs2
    constructor
    · rw [generate_eq, generate_eq]
    · by_cases h : env.sourceExists <;> by_cases h2 : env2.sourceExists <;>
        simp [mainRun, h, h2]

/-- C4: If the first external failure of a run hits table entry `k` (its
directory creation or its save fails, all earlier entries succeed), the
whole operation aborts: the failure is the caught exception, and for every
entry after `k` no directory-creation or save is attempted, no directory is
created, and no file is written — while every entry before `k` keeps its
fully written output file on disk (partial completion, no rollback). -/
theorem claim_C4_abort_on_first_failure (env : Env) (src out : String) (fs : FS)
    (img : PILImage) (k : Nat) (hk : k < sizes.length)
    (hdec : env.decode = Except.ok img)
    (hpre : ∀ e ∈ sizes.take k, entryFailure env out e = none)
    (exc : PyExc) (hfail : entryFailure env out (sizes.get ⟨k, hk⟩) = some exc) :
    (generate_android_icons env src out fs).caught = some exc ∧
    (∀ j, ∀ hj : j < sizes.length, k < j →
      Effect.mkdir (entryDirPath out (sizes.get ⟨j, hj⟩))
          ∉ (generate_android_icons env src out fs).effects ∧
      Effect.save (entryFilePath out (sizes.get ⟨j, hj⟩))
          ∉ (generate_android_icons env src out fs).effects ∧
      (entryDirPath out (sizes.get ⟨j, hj⟩) ∉ fs.dirs →
        entryDirPath out (sizes.get ⟨j, hj⟩)
          ∉ (generate_android_icons env src out fs).fs.dirs) ∧
      (generate_android_icons env src out fs).fs.lookup
          (entryFilePath out (sizes.get ⟨j, hj⟩))
        = fs.lookup (entryFilePath out (sizes.get ⟨j, hj⟩))) ∧
    (∀ i, ∀ hik : i < k,
      (generate_android_icons env src out fs).fs.lookup
          (entryFilePath out (sizes.get ⟨i, Nat.lt_trans hik hk⟩))
        = some (iconContent env (normalizeRGBA env img)
            (sizes.get ⟨i, Nat.lt_trans hik hk⟩))) := by
  have hfs := generate_fail_fs env src out fs img k hk hdec hpre exc hfail
  have heff := generate_fail_effects env src out fs img k hk hdec hpre exc hfail
  refine ⟨generate_fail_caught env src out fs img k hk hdec hpre exc hfail, ?_, ?_⟩
  · intro j hj hkj
    refine ⟨?_, ?_, ?_, ?_⟩
    · rw [heff]
      intro hmem
      simp only [List.mem_cons, List.mem_append] at hmem
      rcases hmem with h1 | h1 | h1 | h1
      · cases h1
      · exact mkdir_not_mem_conv _ _ h1
      · obtain ⟨e, he, heq⟩ := (mkdir_mem_entryEffects out (sizes.take k) _).mp h1
        obtain ⟨i, hik, hi, rfl⟩ := mem_take_sizes k e he
        exact entryDirPath_get_ne out j i hj hi (by omega) heq
      · exact entryDirPath_get_ne out j k hj hk (by omega)
          (entryAttempt_effect_mkdir _ _ _ _ _ _ h1)
    · rw [heff]
      intro hmem
      simp only [List.mem_cons, List.mem_append] at hmem
      rcases hmem with h1 | h1 | h1 | h1
      · cases h1
      · exact save_not_mem_conv _ _ h1
      · obtain ⟨e, he, heq⟩ := (save_mem_entryEffects out (sizes.take k) _).mp h1
        obtain ⟨i, hik, hi, rfl⟩ := mem_take_sizes k e he
        exact entryFilePath_get_ne out j i hj hi (by omega) heq
      · exact entryFilePath_get_ne out j k hj hk (by omega)
          (entryAttempt_effect_save _ _ _ _ _ _ h1)
    · intro hnotin hmem
      rw [hfs] at hmem
      rcases entryAttempt_fail_dirs env _ out _ _ exc hfail _ hmem with hq | hq
      · rcases (mem_dirs_applyAll env _ out (sizes.take k) fs _).mp hq with hq2 | ⟨e, he, heq⟩
        · exact hnotin hq2
        · obtain ⟨i, hik, hi, rfl⟩ := mem_take_sizes k e he
          exact entryDirPath_get_ne out j i hj hi (by omega) heq
      · exact entryDirPath_get_ne out j k hj hk (by omega) hq
    · rw [hfs, entryAttempt_fail_lookup env _ out _ _ exc hfail]
      apply lookup_applyAll_not_mem
      intro e he heq
      obtain ⟨i, hik, hi, rfl⟩ := mem_take_sizes k e he
      exact entryFilePath_get_ne out j i hj hi (by omega) heq
  · intro i hik
    rw [hfs, entryAttempt_fail_lookup env _ out _ _ exc hfail]
    exact lookup_applyAll_mem env _ out (sizes.take k) fs
      (take_sizes_filePaths_nodup out k) _
      (get_mem_take_sizes i k hik (Nat.lt_trans hik hk))

theorem claim_C4_witness :
    (∀ e ∈ sizes.take 2, entryFailure failMkdirEnv android_res_dir e = none) ∧
    entryFailure failMkdirEnv android_res_dir (sizes.get ⟨2, by decide⟩)
      = some (.osError (entryDirPath android_res_dir ("mipmap-xhdpi", 96))
          "Permission denied") ∧
    ((generate_android_icons failMkdirEnv source_image android_res_dir emptyFS).caught
      = some (.osError (entryDirPath android_res_dir ("mipmap-xhdpi", 96))
          "Permission denied") ∧
    (∀ j, ∀ hj : j < sizes.length, 2 < j →
      Effect.mkdir (entryDirPath android_res_dir (sizes.get ⟨j, hj⟩))
          ∉ (generate_android_icons failMkdirEnv source_image android_res_dir
              emptyFS).effects ∧
      Effect.save (entryFilePath android_res_dir (sizes.get ⟨j, hj⟩))
          ∉ (generate_android_icons failMkdirEnv source_image android_res_dir
              emptyFS).effects ∧
      (entryDirPath android_res_dir (sizes.get ⟨j, hj⟩) ∉ emptyFS.dirs →
        entryDirPath android_res_dir (sizes.get ⟨j, hj⟩)
          ∉ (generate_android_icons failMkdirEnv source_image android_res_dir
              emptyFS).fs.dirs) ∧
      (generate_android_icons failMkdirEnv source_image android_res_dir emptyFS).fs.lookup
          (entryFilePath android_res_dir (sizes.get ⟨j, hj⟩))
        = emptyFS.lookup (entryFilePath android_res_dir (sizes.get ⟨j, hj⟩))) ∧
    (∀ i, ∀ hik : i < 2,
      (generate_android_icons failMkdirEnv source_image android_res_dir emptyFS).fs.lookup
          (entryFilePath android_res_dir (sizes.get ⟨i, Nat.lt_trans hik (by decide)⟩))
        = some (iconContent failMkdirEnv (normalizeRGBA failMkdirEnv sampleImage)
            (sizes.get ⟨i, Nat.lt_trans hik (by decide)⟩)))) :=
  ⟨by decide, rfl,
   claim_C4_abort_on_first_failure failMkdirEnv source_image android_res_dir emptyFS
     sampleImage 2 (by decide) rfl (by decide) _ rfl⟩

/-- C5: When directory creation or file write first fails at a table entry,
the caught exception (the spec's WriteError) is an OSError carrying a path
and the underlying cause: the cause is exactly what the failing OS call
reported, and the path — the entry's directory or its output file — contains
the entry's label as a substring, so the error identifies both the entry and
the cause. -/
theorem claim_C5_write_error_label_cause (env : Env) (src out : String) (fs : FS)
    (img : PILImage) (k : Nat) (hk : k < sizes.length)
    (hdec : env.decode = Except.ok img)
    (hpre : ∀ e ∈ sizes.take k, entryFailure env out e = none)
    (exc : PyExc) (hfail : entryFailure env out (sizes.get ⟨k, hk⟩) = some exc) :
    ∃ p cause : String,
      (generate_android_icons env src out fs).caught = some (PyExc.osError p cause) ∧
      (sizes.get ⟨k, hk⟩).1.data <:+: p.data ∧
      ((env.mkdirFail (entryDirPath out (sizes.get ⟨k, hk⟩)) = some cause ∧
          p = entryDirPath out (sizes.get ⟨k, hk⟩)) ∨
        (env.saveFail (entryFilePath out (sizes.get ⟨k, hk⟩)) = some cause ∧
          p = entryFilePath out (sizes.get ⟨k, hk⟩))) := by
  have hc := generate_fail_caught env src out fs img k hk hdec hpre exc hfail
  rcases entryFailure_some_shape env out _ exc hfail with ⟨c, hmf, rfl⟩ | ⟨hmn, c, hsf, rfl⟩
  · exact ⟨_, c, hc, label_infix_entryDirPath out _, Or.inl ⟨hmf, rfl⟩⟩
  · exact ⟨_, c, hc, label_infix_entryFilePath out _, Or.inr ⟨hsf, rfl⟩⟩

theorem claim_C5_witness :
    (∀ e ∈ sizes.take 1, entryFailure failSaveEnv android_res_dir e = none) ∧
    entryFailure failSaveEnv android_res_dir (sizes.get ⟨1, by decide⟩)
      = some (.osError (entryFilePath android_res_dir ("mipmap-hdpi", 72))
          "No space left on device") ∧
    (∃ p cause : String,
      (generate_android_icons failSaveEnv source_image android_res_dir emptyFS).caught
        = some (PyExc.osError p cause) ∧
      (sizes.get ⟨1, by decide⟩).1.data <:+: p.data ∧
      ((failSaveEnv.mkdirFail (entryDirPath android_res_dir (sizes.get ⟨1, by decide⟩))
          = some cause ∧
          p = entryDirPath android_res_dir (sizes.get ⟨1, by decide⟩)) ∨
        (failSaveEnv.saveFail (entryFilePath android_res_dir (sizes.get ⟨1, by decide⟩))
          = some cause ∧
          p = entryFilePath android_res_dir (sizes.get ⟨1, by decide⟩)))) :=
  ⟨by decide, rfl,
   claim_C5_write_error_label_cause failSaveEnv source_image android_res_dir emptyFS
     sampleImage 1 (by decide) rfl (by decide) _ rfl⟩

theorem entryFailure_savefail (env : Env) (out : String) (e : String × Nat) (cause : String)
    (hm : env.mkdirFail (entryDirPath out e) = none)
    (hs : env.saveFail (entryFilePath out e) = some cause) :
    entryFailure env out e = some (.osError (entryFilePath out e) cause) := by
  simp [entryFailure, hm, hs]

/-- C10: Within a table entry the directory is created before the save is
attempted, so if the save for entry `k` fails (all earlier entries having
succeeded), the directory `output_root/label_k` exists on disk even though
entry `k` wrote no file — its output path is unchanged — and the entries
before `k` keep their fully written files; the effect trace ends with the
mkdir of entry `k` followed by its save attempt. -/
theorem claim_C10_dir_created_before_save (env : Env) (src out : String) (fs : FS)
    (img : PILImage) (k : Nat) (hk : k < sizes.length)
    (hdec : env.decode = Except.ok img)
    (hpre : ∀ e ∈ sizes.take k, entryFailure env out e = none)
    (cause : String)
    (hmk : env.mkdirFail (entryDirPath out (sizes.get ⟨k, hk⟩)) = none)
    (hsv : env.saveFail (entryFilePath out (sizes.get ⟨k, hk⟩)) = some cause) :
    entryDirPath out (sizes.get ⟨k, hk⟩)
        ∈ (generate_android_icons env src out fs).fs.dirs ∧
    (generate_android_icons env src out fs).fs.lookup
        (entryFilePath out (sizes.get ⟨k, hk⟩))
      = fs.lookup (entryFilePath out (sizes.get ⟨k, hk⟩)) ∧
    (∀ i, ∀ hik : i < k,
      (generate_android_icons env src out fs).fs.lookup
          (entryFilePath out (sizes.get ⟨i, Nat.lt_trans hik hk⟩))
        = some (iconContent env (normalizeRGBA env img)
            (sizes.get ⟨i, Nat.lt_trans hik hk⟩))) ∧
    (generate_android_icons env src out fs).effects
      = .decodeAttempt src ::
        ((if img.mode = "RGBA" then [] else [.convert]) ++
          (entryEffects out (sizes.take k) ++
            [.mkdir (entryDirPath out (sizes.get ⟨k, hk⟩)),
             .save (entryFilePath out (sizes.get ⟨k, hk⟩))])) := by
  have hfail := entryFailure_savefail env out _ cause hmk hsv
  have hfs := generate_fail_fs env src out fs img k hk hdec hpre _ hfail
  have heff := generate_fail_effects env src out fs img k hk hdec hpre _ hfail
  have hatt := entryAttempt_savefail env (normalizeRGBA env img) out
    (applyAll env (normalizeRGBA env img) out (sizes.take k) fs) _ cause hmk hsv
  refine ⟨?_, ?_, ?_, ?_⟩
  · rw [hfs, hatt]
    exact FS.mem_dirs_mkdir _ _
  · rw [hfs, entryAttempt_fail_lookup env _ out _ _ _ hfail]
    apply lookup_applyAll_not_mem
    intro e he heq
    obtain ⟨i, hik, hi, rfl⟩ := mem_take_sizes k e he
    exact entryFilePath_get_ne out k i hk hi (by omega) heq
  · intro i hik
    rw [hfs, entryAttempt_fail_lookup env _ out _ _ _ hfail]
    exact lookup_applyAll_mem env _ out (sizes.take k) fs
      (take_sizes_filePaths_nodup out k) _
      (get_mem_take_sizes i k hik (Nat.lt_trans hik hk))
  · rw [heff, hatt]

theorem claim_C10_witness :
    (∀ e ∈ sizes.take 1, entryFailure failSaveEnv android_res_dir e = none) ∧
    failSaveEnv.mkdirFail (entryDirPath android_res_dir (sizes.get ⟨1, by decide⟩)) = none ∧
    failSaveEnv.saveFail (entryFilePath android_res_dir (sizes.get ⟨1, by decide⟩))
      = some "No space left on device" ∧
    (entryDirPath android_res_dir (sizes.get ⟨1, by decide⟩)
        ∈ (generate_android_icons failSaveEnv source_image android_res_dir emptyFS).fs.dirs ∧
    (generate_android_icons failSaveEnv source_image android_res_dir emptyFS).fs.lookup
        (entryFilePath android_res_dir (sizes.get ⟨1, by decide⟩))
      = emptyFS.lookup (entryFilePath android_res_dir (sizes.get ⟨1, by decide⟩)) ∧
    (∀ i, ∀ hik : i < 1,
      (generate_android_icons failSaveEnv source_image android_res_dir emptyFS).fs.lookup
          (entryFilePath android_res_dir (sizes.get ⟨i, Nat.lt_trans hik (by decide)⟩))
        = some (iconContent failSaveEnv (normalizeRGBA failSaveEnv sampleImage)
            (sizes.get ⟨i, Nat.lt_trans hik (by decide)⟩))) ∧
    (generate_android_icons failSaveEnv source_image android_res_dir emptyFS).effects
      = .decodeAttempt source_image ::
        ((if sampleImage.mode = "RGBA" then [] else [.convert]) ++
          (entryEffects android_res_dir (sizes.take 1) ++
            [.mkdir (entryDirPath android_res_dir (sizes.get ⟨1, by decide⟩)),
             .save (entryFilePath android_res_dir (sizes.get ⟨1, by decide⟩))]))) :=
  ⟨by decide, rfl, rfl,
   claim_C10_dir_created_before_save failSaveEnv source_image android_res_dir emptyFS
     sampleImage 1 (by decide) rfl (by decide) "No space left on device" rfl rfl⟩

end IconGen
